import Mathlib

/-!
Verification of the loss-aggregation subsystem of the DaChuang repository
(`lib/core/loss.py`): the multi-head weighted loss combiner `MultiHeadLoss`,
the focal reweighting wrapper `FocalLoss`, and the label-smoothing generator
`smooth_BCE`.

Modelling conventions (shallow embedding over exact rationals ℚ):
* Tensors are lists of rationals or functions from concrete index tuples to ℚ.
* `torch.sigmoid` and float `**` are external numeric primitives of the torch
  library, not repository code; they are passed in as function parameters
  (`sig : ℚ → ℚ`, `powf : ℚ → ℚ → ℚ`).  Every theorem that needs a fact about
  them (e.g. `x ** 0 = 1`, matching Python float semantics) states it as an
  explicit hypothesis.
* `bbox_iou` (from `lib/core/general.py`) and `build_targets`
  (from `lib/core/postprocess.py`) are external collaborators per the spec:
  the IoU metric is a function parameter `iouF` applied elementwise per match,
  and the matched-target bundle (`tcls`, `tbox`, `indices`, `anchors`) is an
  input to the forward model, exactly the data `build_targets` returns.
* The three elementwise loss criteria (`BCEcls`, `BCEobj`, `BCEseg`) are
  scalar-valued functions `List ℚ → List ℚ → ℚ` on flattened tensors, as the
  aggregator only ever adds their scalar results.
* Python `assert` failure at construction is modelled by `Option`: `none`
  means the constructor raised before any forward pass could run.
-/

namespace DaChuangLoss

/-- Elementwise loss criterion handed to `MultiHeadLoss` (e.g. a
`nn.BCEWithLogitsLoss` instance): consumes a flattened prediction tensor and a
flattened target tensor and yields a scalar loss. -/
def LossFn : Type := List ℚ → List ℚ → ℚ

/-- Configuration surface read by `MultiHeadLoss._forward_impl`: the four gain
multipliers `cfg.LOSS.{CLS,OBJ,BOX,SEG}_GAIN` and the boolean flag
`cfg.TRAIN.FREEZE_SEG`, flattened into one record. -/
structure Config where
  CLS_GAIN : ℚ
  OBJ_GAIN : ℚ
  BOX_GAIN : ℚ
  SEG_GAIN : ℚ
  FREEZE_SEG : Bool

/-- Model collaborator surface: the IoU-blend ratio `model.gr` and the number
of object classes `model.nc`. -/
structure YModel where
  gr : ℚ
  nc : ℕ

/-- State of a constructed `MultiHeadLoss` module: the list of criteria, the
stored weight vector and the configuration (`__init__`, lines 18-26). -/
structure MultiHeadLoss where
  losses : List LossFn
  lambdas : List ℚ
  cfg : Config

/-- Embedding of `MultiHeadLoss.__init__` (loss.py lines 11-26).  `lambdas`
is `Option (List ℚ)`: `none` models passing Python `None`.  Python's
`if not lambdas` treats both `None` and the empty list as falsy and replaces
them with `[1.0] * (len(losses) + 1)`.  The `assert all(lam >= 0.0 ...)`
is modelled by returning `none` (construction raises) when it fails. -/
def MultiHeadLoss.init (losses : List LossFn) (cfg : Config)
    (lambdas : Option (List ℚ)) : Option MultiHeadLoss :=
  let lams : List ℚ :=
    match lambdas with
    | Option.none => List.replicate (losses.length + 1) 1
    | Option.some l => if l.isEmpty then List.replicate (losses.length + 1) 1 else l
  if lams.all (fun lam => decide (0 ≤ lam)) then
    Option.some { losses := losses, lambdas := lams, cfg := cfg }
  else
    Option.none

/-- Embedding of `smooth_BCE` (loss.py lines 165-167): returns the positive
and negative label-smoothing BCE targets.  A pure function of `eps`. -/
def smooth_BCE (eps : ℚ) : ℚ × ℚ :=
  (1 - 0.5 * eps, 0.5 * eps)

/-- C6: for every smoothing factor `eps` in `[0,1)`, `smooth_BCE` returns
exactly the pair `(1 − 0.5·eps, 0.5·eps)`; in particular `(1.0, 0.0)` for
`eps = 0` and `(0.95, 0.05)` for `eps = 0.1`.  It is a pure Lean function,
hence deterministic. -/
theorem C6_smooth_BCE_values (eps : ℚ) (_h : 0 ≤ eps ∧ eps < 1) :
    smooth_BCE eps = (1 - 0.5 * eps, 0.5 * eps) ∧
    smooth_BCE 0 = (1, 0) ∧ smooth_BCE 0.1 = (0.95, 0.05) :=
  ⟨rfl, by norm_num [smooth_BCE], by norm_num [smooth_BCE]⟩

/-- Witness for C6 at `eps = 1/10`. -/
theorem C6_smooth_BCE_values_witness :
    smooth_BCE (1/10) = (1 - 0.5 * (1/10), 0.5 * (1/10)) ∧
    smooth_BCE 0 = (1, 0) ∧ smooth_BCE 0.1 = (0.95, 0.05) :=
  C6_smooth_BCE_values (1/10) (by norm_num)

/-- C7: construction of `MultiHeadLoss` fails (returns `none`, modelling the
`assert` raising before any forward pass) whenever the supplied weight vector
contains a negative element, and succeeds for every vector of non-negative
weights. -/
theorem C7_init_nonneg_validation (losses : List LossFn) (cfg : Config)
    (lambdas : List ℚ) :
    ((∃ lam ∈ lambdas, lam < 0) →
        MultiHeadLoss.init losses cfg (Option.some lambdas) = Option.none) ∧
    ((∀ lam ∈ lambdas, 0 ≤ lam) →
        (MultiHeadLoss.init losses cfg (Option.some lambdas)).isSome = true) := by
  constructor
  · rintro ⟨lam, hmem, hneg⟩
    have hne : lambdas ≠ [] := by
      intro h; subst h; exact absurd hmem (List.not_mem_nil lam)
    simp only [MultiHeadLoss.init, List.isEmpty_iff, if_neg hne]
    rw [if_neg]
    intro hall
    rw [List.all_eq_true] at hall
    have := hall lam hmem
    simp only [decide_eq_true_eq] at this
    exact absurd this (not_le.mpr hneg)
  · intro hnn
    by_cases hne : lambdas = []
    · subst hne
      simp [MultiHeadLoss.init, List.all_eq_true, List.mem_replicate]
    · simp only [MultiHeadLoss.init, List.isEmpty_iff, if_neg hne]
      rw [if_pos]
      · rfl
      · rw [List.all_eq_true]
        intro lam hmem
        simpa using hnn lam hmem

/-- Witness for C7: the vector `[−1]` is rejected and `[1, 2]` is accepted. -/
theorem C7_init_nonneg_validation_witness :
    MultiHeadLoss.init [] ⟨1, 1, 1, 1, false⟩ (Option.some [-1]) = Option.none ∧
    (MultiHeadLoss.init [] ⟨1, 1, 1, 1, false⟩ (Option.some [1, 2])).isSome = true :=
  ⟨(C7_init_nonneg_validation [] ⟨1, 1, 1, 1, false⟩ [-1]).1
      ⟨-1, by simp, by norm_num⟩,
   (C7_init_nonneg_validation [] ⟨1, 1, 1, 1, false⟩ [1, 2]).2 (by decide)⟩

/-- C10: a falsy `lambdas` argument (`None` or the empty list) makes the
stored weight vector default to all ones of length `len(losses) + 1` — length
4 for the three standard criteria — and this default passes validation; a
caller-supplied non-empty vector of non-negative weights is stored verbatim,
with no length-4 check. -/
theorem C10_default_lambdas (losses : List LossFn) (cfg : Config) :
    ((MultiHeadLoss.init losses cfg Option.none).map MultiHeadLoss.lambdas =
        Option.some (List.replicate (losses.length + 1) 1)) ∧
    ((MultiHeadLoss.init losses cfg (Option.some [])).map MultiHeadLoss.lambdas =
        Option.some (List.replicate (losses.length + 1) 1)) ∧
    (losses.length = 3 → (List.replicate (losses.length + 1) (1 : ℚ)).length = 4) ∧
    (∀ l : List ℚ, l ≠ [] → (∀ x ∈ l, 0 ≤ x) →
        (MultiHeadLoss.init losses cfg (Option.some l)).map MultiHeadLoss.lambdas =
          Option.some l) := by
  refine ⟨?_, ?_, ?_, ?_⟩
  · simp [MultiHeadLoss.init, List.all_eq_true, List.mem_replicate]
  · simp [MultiHeadLoss.init, List.all_eq_true, List.mem_replicate]
  · intro h; simp [h]
  · intro l hne hnn
    simp only [MultiHeadLoss.init, List.isEmpty_iff, if_neg hne]
    rw [if_pos]
    · rfl
    · rw [List.all_eq_true]
      intro lam hmem
      simpa using hnn lam hmem

/-- Witness for C10 with three criteria and a caller-supplied length-2
vector accepted unchanged. -/
theorem C10_default_lambdas_witness :
    ((MultiHeadLoss.init [fun _ _ => 0, fun _ _ => 0, fun _ _ => 0]
        ⟨1, 1, 1, 1, false⟩ Option.none).map MultiHeadLoss.lambdas =
      Option.some (List.replicate 4 1)) ∧
    (MultiHeadLoss.init [fun _ _ => 0, fun _ _ => 0, fun _ _ => 0]
        ⟨1, 1, 1, 1, false⟩ (Option.some [2, 3])).map MultiHeadLoss.lambdas =
      Option.some [2, 3] := by
  have h := C10_default_lambdas
    [fun _ _ => 0, fun _ _ => 0, fun _ _ => 0] ⟨1, 1, 1, 1, false⟩
  exact ⟨h.1, h.2.2.2 [2, 3] (by simp) (by decide)⟩

/-! ## Focal loss wrapper (loss.py lines 170-199) -/

/-- Reduction mode of a torch loss module: the strings `'mean'`, `'sum'` and
`'none'`. -/
inductive Reduction where
  | mean
  | sum
  | none
deriving DecidableEq

/-- Output of a torch loss call: a scalar (after `mean`/`sum` reduction) or an
elementwise tensor (reduction `'none'`). -/
inductive TOut where
  | scalar (x : ℚ)
  | tensor (xs : List ℚ)
deriving DecidableEq

/-- Multiply a loss output by a constant, elementwise on tensors. -/
def TOut.scale (c : ℚ) : TOut → TOut
  | TOut.scalar x => TOut.scalar (x * c)
  | TOut.tensor xs => TOut.tensor (xs.map (fun x => x * c))

/-- Arithmetic mean of a list (torch `mean`; empty list yields `0/0 = 0`). -/
def listMean (l : List ℚ) : ℚ := l.sum / l.length

/-- Apply a torch reduction mode to an elementwise loss tensor. -/
def applyReduction : Reduction → List ℚ → TOut
  | Reduction.mean, l => TOut.scalar (listMean l)
  | Reduction.sum, l => TOut.scalar l.sum
  | Reduction.none, l => TOut.tensor l

/-- A base loss module as the focal wrapper sees it (e.g. an
`nn.BCEWithLogitsLoss` instance): an elementwise loss function — a torch
primitive, kept abstract — together with a mutable `reduction` field. -/
structure BaseLoss where
  elem : ℚ → ℚ → ℚ
  reduction : Reduction

/-- Invoke a base loss module: compute the elementwise losses and apply the
module's configured reduction. -/
def BaseLoss.forward (L : BaseLoss) (pred tgt : List ℚ) : TOut :=
  applyReduction L.reduction (List.zipWith L.elem pred tgt)

/-- State of a constructed `FocalLoss` module (loss.py lines 172-180). -/
structure FocalLoss where
  loss_fcn : BaseLoss
  gamma : ℚ
  alpha : ℚ
  reduction : Reduction

/-- Embedding of `FocalLoss.__init__` (loss.py lines 172-180): the wrapper
records the base module's reduction mode in its own `reduction` field and
overwrites the base module's `reduction` with `'none'` so the base loss is
computed elementwise. -/
def FocalLoss.make (loss_fcn : BaseLoss) (gamma alpha : ℚ) : FocalLoss :=
  { loss_fcn := { loss_fcn with reduction := Reduction.none }
    gamma := gamma
    alpha := alpha
    reduction := loss_fcn.reduction }

/-- Elementwise focal reweighting factor (loss.py lines 188-191):
`alpha_factor * modulating_factor` where `p_t = t·p + (1−t)·(1−p)` with
`p = sigmoid(pred)`.  `sig` stands for `torch.sigmoid` and `powf` for the
float power operator `**`, both external torch/Python primitives. -/
def focalFactor (alpha gamma : ℚ) (sig : ℚ → ℚ) (powf : ℚ → ℚ → ℚ)
    (pred tgt : ℚ) : ℚ :=
  let pred_prob := sig pred
  let p_t := tgt * pred_prob + (1 - tgt) * (1 - pred_prob)
  let alpha_factor := tgt * alpha + (1 - tgt) * (1 - alpha)
  let modulating_factor := powf (1 - p_t) gamma
  alpha_factor * modulating_factor

/-- Embedding of `FocalLoss.forward` (loss.py lines 182-199): call the wrapped
base module, multiply elementwise by the focal factor (broadcasting a scalar
base result over the factor tensor, as torch would), then reduce with the
wrapper's stored reduction mode. -/
def FocalLoss.forward (fl : FocalLoss) (sig : ℚ → ℚ) (powf : ℚ → ℚ → ℚ)
    (pred tgt : List ℚ) : TOut :=
  let base := fl.loss_fcn.forward pred tgt
  let factors := List.zipWith (focalFactor fl.alpha fl.gamma sig powf) pred tgt
  let loss : List ℚ :=
    match base with
    | TOut.tensor l => List.zipWith (fun x f => x * f) l factors
    | TOut.scalar s => factors.map (fun f => s * f)
  match fl.reduction with
  | Reduction.mean => TOut.scalar (listMean loss)
  | Reduction.sum => TOut.scalar loss.sum
  | Reduction.none => TOut.tensor loss

/-- Fusing an elementwise product of two zipWiths over the same lists. -/
theorem zipWith_mul_zipWith (f g : ℚ → ℚ → ℚ) (l1 l2 : List ℚ) :
    List.zipWith (fun x y => x * y) (List.zipWith f l1 l2) (List.zipWith g l1 l2) =
      List.zipWith (fun a b => f a b * g a b) l1 l2 := by
  induction l1 generalizing l2 with
  | nil => simp
  | cons a l ih => cases l2 <;> simp [ih]

/-- A zipWith whose function ignores its arguments up to a constant factor is
a map of the left zipWith. -/
theorem zipWith_mul_const (f : ℚ → ℚ → ℚ) (c : ℚ) (l1 l2 : List ℚ) :
    List.zipWith (fun a b => f a b * c) l1 l2 =
      (List.zipWith f l1 l2).map (fun x => x * c) := by
  induction l1 generalizing l2 with
  | nil => simp
  | cons a l ih => cases l2 <;> simp [ih]

/-- Summing a constant-scaled list scales the sum. -/
theorem sum_map_mul_const (l : List ℚ) (c : ℚ) :
    (l.map (fun x => x * c)).sum = l.sum * c := by
  induction l with
  | nil => simp
  | cons a l ih => simp [ih]; ring

/-- Averaging a constant-scaled list scales the mean. -/
theorem listMean_map_mul_const (l : List ℚ) (c : ℚ) :
    listMean (l.map (fun x => x * c)) = listMean l * c := by
  simp [listMean, sum_map_mul_const, mul_div_right_comm]

/-- Closed form of a wrapped focal forward pass: the elementwise base loss
reweighted by the focal factor, reduced with the base module's wrap-time
reduction mode. -/
theorem focal_forward_eq (L : BaseLoss) (gamma alpha : ℚ)
    (sig : ℚ → ℚ) (powf : ℚ → ℚ → ℚ) (pred tgt : List ℚ) :
    (FocalLoss.make L gamma alpha).forward sig powf pred tgt =
      applyReduction L.reduction
        (List.zipWith (fun p t => L.elem p t * focalFactor alpha gamma sig powf p t)
          pred tgt) := by
  cases hr : L.reduction <;>
    simp [FocalLoss.forward, FocalLoss.make, BaseLoss.forward, applyReduction,
      zipWith_mul_zipWith, hr]

/-- C5: wrapping a base loss forces the base module's reduction to `'none'`
(so the base loss is computed elementwise), and the wrapper's output equals
the elementwise base loss reweighted by the focal factor, reduced with the
reduction mode the base module had at wrap time: mean if `'mean'`, sum if
`'sum'`, elementwise identity otherwise. -/
theorem C5_focal_reduction_plumbing (L : BaseLoss) (gamma alpha : ℚ)
    (sig : ℚ → ℚ) (powf : ℚ → ℚ → ℚ) (pred tgt : List ℚ) :
    (FocalLoss.make L gamma alpha).loss_fcn.reduction = Reduction.none ∧
    (FocalLoss.make L gamma alpha).forward sig powf pred tgt =
      applyReduction L.reduction
        (List.zipWith (fun p t => L.elem p t * focalFactor alpha gamma sig powf p t)
          pred tgt) :=
  ⟨rfl, focal_forward_eq L gamma alpha sig powf pred tgt⟩

/-- Base loss instance used for concrete focal-wrapper evaluations: squared
error with `sum` reduction (an instance of the "any elementwise
binary-classification loss function" the wrapper accepts). -/
def sqErr : BaseLoss :=
  { elem := fun p t => (p - t) ^ 2
    reduction := Reduction.sum }

/-- Stand-in for `torch.sigmoid` in concrete evaluations (its exact value is
irrelevant to the claims settled here). -/
def sigHalf : ℚ → ℚ := fun _ => 1/2

/-- Stand-in for the Python float power operator in concrete evaluations with
exponent `0`: Python yields `x ** 0 == 1.0` for every float `x`. -/
def powOne : ℚ → ℚ → ℚ := fun _ _ => 1

/-- C2 fails as stated: with `gamma = 0` and `alpha = 0.5` the focal wrapper
does NOT return the unwrapped base loss value — the reweighting factor is
`0.5·t + (1−t)·0.5 = 0.5`, not `1`, for every target in `[0,1]`.  Concretely,
with logits `[1]` and targets `[0]` the base loss returns `1` while the
wrapper returns `1/2`. -/
theorem C2_focal_identity_counterexample :
    (∀ t ∈ [(0 : ℚ)], 0 ≤ t ∧ t ≤ 1) ∧
    (FocalLoss.make sqErr 0 0.5).forward sigHalf powOne [1] [0] ≠
      sqErr.forward [1] [0] := by
  constructor
  · intro t ht
    simp only [List.mem_singleton] at ht
    subst ht
    exact ⟨le_refl 0, by norm_num⟩
  · simp only [FocalLoss.forward, FocalLoss.make, BaseLoss.forward, sqErr, sigHalf,
      powOne, focalFactor, applyReduction, List.zipWith, List.map, List.sum_cons,
      List.sum_nil]
    intro hcontra
    rw [TOut.scalar.injEq] at hcontra
    norm_num at hcontra

/-- C2 amended: with `gamma = 0` and `alpha = 0.5` the focal reweighting
factor is identically `1/2` (given the Python float semantics `x ** 0 = 1`),
so for targets in `[0,1]` the wrapper returns exactly HALF the unwrapped base
loss value under the base loss's original reduction. -/
theorem C2_focal_alpha_half_halves_base (L : BaseLoss) (sig : ℚ → ℚ)
    (powf : ℚ → ℚ → ℚ) (hpow : ∀ x : ℚ, powf x 0 = 1) (pred tgt : List ℚ)
    (_htgt : ∀ t ∈ tgt, 0 ≤ t ∧ t ≤ 1) :
    (FocalLoss.make L 0 0.5).forward sig powf pred tgt =
      (L.forward pred tgt).scale (1/2) := by
  have hfac : ∀ p t : ℚ, focalFactor 0.5 0 sig powf p t = 1/2 := by
    intro p t
    simp only [focalFactor, hpow]
    norm_num
    ring
  have hfuse := focal_forward_eq L 0 0.5 sig powf pred tgt
  rw [hfuse]
  have hcong : List.zipWith (fun p t => L.elem p t * focalFactor 0.5 0 sig powf p t)
      pred tgt = List.zipWith (fun p t => L.elem p t * (1/2)) pred tgt := by
    have heq : (fun p t => L.elem p t * focalFactor 0.5 0 sig powf p t) =
        fun p t => L.elem p t * (1/2) := by
      funext p t; rw [hfac]
    rw [heq]
  rw [hcong, zipWith_mul_const]
  unfold BaseLoss.forward
  cases L.reduction with
  | mean => simp [applyReduction, TOut.scale, listMean_map_mul_const]
  | sum => simp [applyReduction, TOut.scale, sum_map_mul_const]
  | none => simp [applyReduction, TOut.scale]

/-- Witness for the amended C2 at concrete inputs: the wrapper output on
logits `[1]`, targets `[0]` is exactly half the base `sqErr` value. -/
theorem C2_focal_alpha_half_halves_base_witness :
    (∀ x : ℚ, powOne x 0 = 1) ∧
    (FocalLoss.make sqErr 0 0.5).forward sigHalf powOne [1] [0] =
      (sqErr.forward [1] [0]).scale (1/2) :=
  ⟨fun _ => rfl,
   C2_focal_alpha_half_halves_base sqErr sigHalf powOne (fun _ => rfl) [1] [0]
     (by decide)⟩

/-! ## Multi-head forward pass (`MultiHeadLoss._forward_impl`, loss.py lines 56-127) -/

/-- Index of a cell in a per-scale detection tensor: `(image, anchor,
grid-row, grid-column)` — the `b, a, gj, gi` of loss.py line 86. -/
abbrev Idx4 : Type := ℕ × ℕ × ℕ × ℕ

/-- A box in center-size encoding `(x, y, w, h)`. -/
abbrev Box4 : Type := ℚ × ℚ × ℚ × ℚ

/-- One per-scale detection prediction tensor `pi`, of logical shape
`(nb, na, ngj, ngi, channels)`: `val b a gj gi c` reads channel `c`
(`0-3` box, `4` objectness, `5+` class logits) at cell `(b, a, gj, gi)`. -/
structure ScalePred where
  nb : ℕ
  na : ℕ
  ngj : ℕ
  ngi : ℕ
  val : ℕ → ℕ → ℕ → ℕ → ℕ → ℚ

/-- Matched-target bundle for one detection scale, as returned by the
external `build_targets` collaborator: per match a target class, a target
box, a cell index and the matched anchor's `(w, h)`. -/
structure ScaleTargets where
  tcls : List ℕ
  tbox : List Box4
  indices : List Idx4
  anchors : List (ℚ × ℚ)

/-- Read channel `c` of the prediction subset `ps = pi[b, a, gj, gi]` for one
match (loss.py line 92). -/
def psAt (p : ScalePred) (idx : Idx4) (c : ℕ) : ℚ :=
  p.val idx.1 idx.2.1 idx.2.2.1 idx.2.2.2 c

/-- Decode the predicted box of one match (loss.py lines 95-97):
`pxy = sigmoid(ps[:, :2]) * 2 − 0.5` and
`pwh = (sigmoid(ps[:, 2:4]) * 2)² * anchors[i]`.  `sig` is `torch.sigmoid`,
an external torch primitive. -/
def pboxOf (sig : ℚ → ℚ) (p : ScalePred) (idx : Idx4) (anch : ℚ × ℚ) : Box4 :=
  (sig (psAt p idx 0) * 2 - 0.5,
   sig (psAt p idx 1) * 2 - 0.5,
   (sig (psAt p idx 2) * 2) ^ 2 * anch.1,
   (sig (psAt p idx 3) * 2) ^ 2 * anch.2)

/-- Per-match IoU values of one scale (loss.py line 98): the external
`bbox_iou` collaborator `iouF` applied elementwise to each decoded predicted
box and its matched target box. -/
def scaleIous (sig : ℚ → ℚ) (iouF : Box4 → Box4 → ℚ)
    (p : ScalePred) (st : ScaleTargets) : List ℚ :=
  List.zipWith (fun ia tb => iouF (pboxOf sig p ia.1 ia.2) tb)
    (st.indices.zip st.anchors) st.tbox

/-- Box-loss contribution of one scale (loss.py line 99): `mean(1 − iou)`,
guarded by the `if n:` check on the number of matches (line 90). -/
def scaleBoxLoss (sig : ℚ → ℚ) (iouF : Box4 → Box4 → ℚ)
    (p : ScalePred) (st : ScaleTargets) : ℚ :=
  if st.indices.length ≠ 0 then
    listMean ((scaleIous sig iouF p st).map (fun iou => 1 - iou))
  else 0

/-- One scatter step of the objectness-target write (loss.py line 102):
`tobj[b, a, gj, gi] = (1 − gr) + gr · iou.detach().clamp(0)`; a later write
to the same cell overwrites an earlier one, as in torch. -/
def scatterWrite (gr : ℚ) : (Idx4 → ℚ) → (Idx4 × ℚ) → (Idx4 → ℚ) :=
  fun f iv => fun k => if k = iv.1 then (1 - gr) + gr * max iv.2 0 else f k

/-- Objectness-target tensor of one scale as a function on cell indices:
starts as `torch.zeros_like(pi[..., 0])` (loss.py line 87) and receives one
write per match (line 102).  With zero matches no write happens, so the
tensor stays all-zero. -/
def scaleTObj (gr : ℚ) (sig : ℚ → ℚ) (iouF : Box4 → Box4 → ℚ)
    (p : ScalePred) (st : ScaleTargets) : Idx4 → ℚ :=
  (st.indices.zip (scaleIous sig iouF p st)).foldl (scatterWrite gr) (fun _ => 0)

/-- Flatten a function on cell indices over the scale's full index range,
row-major — the order torch flattens `(nb, na, ngj, ngi)`. -/
def flatten4 (p : ScalePred) (f : Idx4 → ℚ) : List ℚ :=
  (List.range p.nb).flatMap fun b =>
    (List.range p.na).flatMap fun a =>
      (List.range p.ngj).flatMap fun gj =>
        (List.range p.ngi).map fun gi => f (b, a, gj, gi)

/-- The flattened objectness-logit channel `pi[..., 4]` of one scale. -/
def objChannel (p : ScalePred) : List ℚ :=
  flatten4 p (fun k => psAt p k 4)

/-- Objectness-loss contribution of one scale (loss.py line 110):
`BCEobj(pi[..., 4], tobj) * balance[i]`, accumulated for every scale,
matched or not. -/
def scaleObjLoss (BCEobj : LossFn) (gr : ℚ) (sig : ℚ → ℚ)
    (iouF : Box4 → Box4 → ℚ) (p : ScalePred) (st : ScaleTargets)
    (bal : ℚ) : ℚ :=
  BCEobj (objChannel p) (flatten4 p (scaleTObj gr sig iouF p st)) * bal

/-- Flattened class-logit rows `ps[:, 5:]` of the matched cells of one scale
(loss.py line 108, first argument of `BCEcls`). -/
def clsLogits (nc : ℕ) (p : ScalePred) (st : ScaleTargets) : List ℚ :=
  st.indices.flatMap fun idx => (List.range nc).map fun c => psAt p idx (5 + c)

/-- Flattened smoothed one-hot classification target rows (loss.py lines
106-107): `cn` everywhere, `cp` at each match's true class column. -/
def clsTargets (nc : ℕ) (cp cn : ℚ) (st : ScaleTargets) : List ℚ :=
  st.tcls.flatMap fun tc => (List.range nc).map fun c => if c = tc then cp else cn

/-- Classification-loss contribution of one scale (loss.py lines 105-108),
guarded by `if n:` (line 90) and `if model.nc > 1` (line 105). -/
def scaleClsLoss (BCEcls : LossFn) (nc : ℕ) (cp cn : ℚ)
    (p : ScalePred) (st : ScaleTargets) : ℚ :=
  if st.indices.length ≠ 0 ∧ 1 < nc then
    BCEcls (clsLogits nc p st) (clsTargets nc cp cn st)
  else 0

/-- Per-scale objectness balance weights (loss.py line 82):
`[4.0, 1.0, 0.4]` for 3 detection scales, `[4.0, 1.0, 0.4, 0.1]` otherwise. -/
def balance (no : ℕ) : List ℚ :=
  if no = 3 then [4.0, 1.0, 0.4] else [4.0, 1.0, 0.4, 0.1]

/-- One iteration of the detection loop (loss.py lines 85-110), updating the
`(lcls, lbox, lobj)` accumulator triple with scale `i`'s contributions. -/
def detStep (BCEcls BCEobj : LossFn) (model : YModel) (sig : ℚ → ℚ)
    (iouF : Box4 → Box4 → ℚ) (cp cn : ℚ) (bal : List ℚ)
    (acc : ℚ × ℚ × ℚ) (ip : ℕ × (ScalePred × ScaleTargets)) : ℚ × ℚ × ℚ :=
  (acc.1 + scaleClsLoss BCEcls model.nc cp cn ip.2.1 ip.2.2,
   acc.2.1 + scaleBoxLoss sig iouF ip.2.1 ip.2.2,
   acc.2.2 + scaleObjLoss BCEobj model.gr sig iouF ip.2.1 ip.2.2 (bal.getD ip.1 0))

/-- The detection loop (loss.py lines 85-110): fold `detStep` over the
enumerated scales, starting from zero accumulators (line 71), yielding the
raw `(lcls, lbox, lobj)` before gain scaling. -/
def detAccum (BCEcls BCEobj : LossFn) (model : YModel) (sig : ℚ → ℚ)
    (iouF : Box4 → Box4 → ℚ) (cp cn : ℚ)
    (scales : List (ScalePred × ScaleTargets)) (bal : List ℚ) : ℚ × ℚ × ℚ :=
  scales.enum.foldl (detStep BCEcls BCEobj model sig iouF cp cn bal) (0, 0, 0)

/-- Embedding of `MultiHeadLoss._forward_impl` (loss.py lines 56-127).

`scales` pairs each per-scale prediction tensor `predictions[0][i]` with the
matched-target bundle `(tcls[i], tbox[i], indices[i], anchors[i])` that the
external `build_targets` collaborator returns for it; `segPred`/`segTgt` are
the flattened segmentation prediction `predictions[-1].view(-1)` and target
`targets[-1].view(-1)`; `sig` and `iouF` are the external `torch.sigmoid`
and `bbox_iou` collaborators.  `self.losses` destructures as
`BCEcls, BCEobj, BCEseg` (line 77; Python raises if the list does not have
exactly three entries, and raises `IndexError` on `self.lambdas[i]` for a
weight vector shorter than 4 — out-of-range access is modelled by the
default 0, a case no theorem below relies on).  Returns
`(total_loss, (lbox, lobj, lcls, lseg, total_loss))`. -/
def MultiHeadLoss.forward_impl (m : MultiHeadLoss) (sig : ℚ → ℚ)
    (iouF : Box4 → Box4 → ℚ) (scales : List (ScalePred × ScaleTargets))
    (segPred segTgt : List ℚ) (model : YModel) : ℚ × (ℚ × ℚ × ℚ × ℚ × ℚ) :=
  let cpcn := smooth_BCE 0
  let BCEcls := m.losses.getD 0 (fun _ _ => 0)
  let BCEobj := m.losses.getD 1 (fun _ _ => 0)
  let BCEseg := m.losses.getD 2 (fun _ _ => 0)
  let no := scales.length
  let acc := detAccum BCEcls BCEobj model sig iouF cpcn.1 cpcn.2 scales (balance no)
  let lseg0 := BCEseg segPred segTgt
  let s : ℚ := 3 / (no : ℚ)
  let lcls := acc.1 * (m.cfg.CLS_GAIN * s * m.lambdas.getD 0 0)
  let lobj := acc.2.2 * (m.cfg.OBJ_GAIN * s * (if no = 4 then 1.4 else 1) * m.lambdas.getD 1 0)
  let lbox := acc.2.1 * (m.cfg.BOX_GAIN * s * m.lambdas.getD 2 0)
  let lseg1 := lseg0 * (m.cfg.SEG_GAIN * m.lambdas.getD 3 0)
  let lseg := if m.cfg.FREEZE_SEG then 0 * lseg1 else lseg1
  let loss := lbox + lobj + lcls + lseg
  (loss, (lbox, lobj, lcls, lseg, loss))

/-! ## Theorems about the forward pass -/

/-- C1: the returned `total_loss` equals the sum of the four component
losses, each scaled by its gain, the output-count factor `s = 3/no` (for
classification, objectness and box but not segmentation), the extra `1.4`
objectness factor exactly when `no = 4`, and its lambda weight (with the
segmentation term zeroed iff the freeze flag is set, loss.py lines 123-124);
the total is also the sum of the first four entries of the returned
breakdown tuple, whose fifth entry repeats the total. -/
theorem C1_total_loss_weighted_sum (m : MultiHeadLoss) (sig : ℚ → ℚ)
    (iouF : Box4 → Box4 → ℚ) (scales : List (ScalePred × ScaleTargets))
    (segPred segTgt : List ℚ) (model : YModel) :
    (m.forward_impl sig iouF scales segPred segTgt model).2.2.2.2.2 =
      (m.forward_impl sig iouF scales segPred segTgt model).1 ∧
    (m.forward_impl sig iouF scales segPred segTgt model).1 =
      (m.forward_impl sig iouF scales segPred segTgt model).2.1 +
      (m.forward_impl sig iouF scales segPred segTgt model).2.2.1 +
      (m.forward_impl sig iouF scales segPred segTgt model).2.2.2.1 +
      (m.forward_impl sig iouF scales segPred segTgt model).2.2.2.2.1 ∧
    (m.forward_impl sig iouF scales segPred segTgt model).2.1 =
      (detAccum (m.losses.getD 0 (fun _ _ => 0)) (m.losses.getD 1 (fun _ _ => 0))
          model sig iouF (smooth_BCE 0).1 (smooth_BCE 0).2 scales
          (balance scales.length)).2.1 *
        (m.cfg.BOX_GAIN * (3 / (scales.length : ℚ)) * m.lambdas.getD 2 0) ∧
    (m.forward_impl sig iouF scales segPred segTgt model).2.2.1 =
      (detAccum (m.losses.getD 0 (fun _ _ => 0)) (m.losses.getD 1 (fun _ _ => 0))
          model sig iouF (smooth_BCE 0).1 (smooth_BCE 0).2 scales
          (balance scales.length)).2.2 *
        (m.cfg.OBJ_GAIN * (3 / (scales.length : ℚ)) *
          (if scales.length = 4 then 1.4 else 1) * m.lambdas.getD 1 0) ∧
    (m.forward_impl sig iouF scales segPred segTgt model).2.2.2.1 =
      (detAccum (m.losses.getD 0 (fun _ _ => 0)) (m.losses.getD 1 (fun _ _ => 0))
          model sig iouF (smooth_BCE 0).1 (smooth_BCE 0).2 scales
          (balance scales.length)).1 *
        (m.cfg.CLS_GAIN * (3 / (scales.length : ℚ)) * m.lambdas.getD 0 0) ∧
    (m.forward_impl sig iouF scales segPred segTgt model).2.2.2.2.1 =
      (if m.cfg.FREEZE_SEG then 0 else
        (m.losses.getD 2 (fun _ _ => 0)) segPred segTgt *
          (m.cfg.SEG_GAIN * m.lambdas.getD 3 0)) := by
  refine ⟨rfl, rfl, rfl, rfl, rfl, ?_⟩
  by_cases h : m.cfg.FREEZE_SEG <;>
    simp [MultiHeadLoss.forward_impl, h]

/-- C3: a detection scale with an empty matched-target set contributes
exactly zero to the classification- and box-loss accumulators, its
objectness-target tensor is all-zero, and its objectness loss — the full
channel against the all-zero target, scaled by the scale's balance weight —
is still accumulated; running the detection loop over such a scale is not an
error. -/
theorem C3_empty_scale_contributions (BCEcls BCEobj : LossFn)
    (model : YModel) (cp cn : ℚ) (sig : ℚ → ℚ) (iouF : Box4 → Box4 → ℚ)
    (p : ScalePred) (st : ScaleTargets) (bal : ℚ)
    (hempty : st.indices = []) :
    scaleClsLoss BCEcls model.nc cp cn p st = 0 ∧
    scaleBoxLoss sig iouF p st = 0 ∧
    (∀ k, scaleTObj model.gr sig iouF p st k = 0) ∧
    scaleObjLoss BCEobj model.gr sig iouF p st bal =
      BCEobj (objChannel p) (flatten4 p (fun _ => 0)) * bal ∧
    detAccum BCEcls BCEobj model sig iouF cp cn [(p, st)] [bal] =
      (0, 0, scaleObjLoss BCEobj model.gr sig iouF p st bal) := by
  have htobj : scaleTObj model.gr sig iouF p st = fun _ => 0 := by
    simp [scaleTObj, hempty]
  refine ⟨?_, ?_, ?_, ?_, ?_⟩
  · simp [scaleClsLoss, hempty]
  · simp [scaleBoxLoss, hempty]
  · intro k; rw [htobj]
  · simp [scaleObjLoss, htobj]
  · simp [detAccum, detStep, scaleClsLoss, scaleBoxLoss, hempty]

/-- Prediction tensor stand-in for concrete evaluations: shape
`(1, 1, 1, 1)` with all-zero entries. -/
def zeroPred : ScalePred := ⟨1, 1, 1, 1, fun _ _ _ _ _ => 0⟩

/-- Empty matched-target bundle for concrete evaluations. -/
def emptyTargets : ScaleTargets := ⟨[], [], [], []⟩

/-- Scalar-valued loss criterion stand-in for concrete evaluations. -/
def sumLoss : LossFn := fun ps ts => (List.zipWith (fun a b => a - b) ps ts).sum

/-- IoU collaborator stand-in returning a perfect overlap of `1`. -/
def iouConst : Box4 → Box4 → ℚ := fun _ _ => 1

/-- Witness for C3 on a concrete empty scale. -/
theorem C3_empty_scale_contributions_witness :
    scaleClsLoss sumLoss 2 1 0 zeroPred emptyTargets = 0 ∧
    scaleBoxLoss sigHalf iouConst zeroPred emptyTargets = 0 ∧
    scaleTObj 1 sigHalf iouConst zeroPred emptyTargets (0, 0, 0, 0) = 0 ∧
    scaleObjLoss sumLoss 1 sigHalf iouConst zeroPred emptyTargets 4 =
      sumLoss (objChannel zeroPred) (flatten4 zeroPred (fun _ => 0)) * 4 ∧
    detAccum sumLoss sumLoss ⟨1, 2⟩ sigHalf iouConst 1 0
        [(zeroPred, emptyTargets)] [4] =
      (0, 0, scaleObjLoss sumLoss 1 sigHalf iouConst zeroPred emptyTargets 4) := by
  have h := C3_empty_scale_contributions sumLoss sumLoss ⟨1, 2⟩ 1 0 sigHalf
    iouConst zeroPred emptyTargets 4 rfl
  exact ⟨h.1, h.2.1, h.2.2.1 (0, 0, 0, 0), h.2.2.2.1, h.2.2.2.2⟩

/-- Scatter writes never change a cell no write targets. -/
theorem foldl_scatterWrite_untouched (gr : ℚ) (l : List (Idx4 × ℚ))
    (f : Idx4 → ℚ) (k : Idx4) (h : ∀ iv ∈ l, iv.1 ≠ k) :
    (l.foldl (scatterWrite gr) f) k = f k := by
  induction l generalizing f with
  | nil => rfl
  | cons a l ih =>
      simp only [List.foldl_cons]
      rw [ih _ (fun iv hiv => h iv (List.mem_cons_of_mem a hiv))]
      have ha : k ≠ a.1 := fun he => (h a (List.mem_cons_self a l)) he.symm
      simp [scatterWrite, ha]

/-- C4: the objectness target written at the cell of match `j` — provided no
later match writes the same cell — equals `(1 − gr) + gr · max(IoU_j, 0)`;
in particular with `gr = 1` and `IoU_j = 1` the target at that cell is `1`. -/
theorem C4_objectness_target_value (gr : ℚ) (sig : ℚ → ℚ)
    (iouF : Box4 → Box4 → ℚ) (p : ScalePred) (st : ScaleTargets) (j : ℕ)
    (hj : j < st.indices.length)
    (hiou : j < (scaleIous sig iouF p st).length)
    (hlast : ∀ iv ∈ (st.indices.zip (scaleIous sig iouF p st)).drop (j + 1),
        iv.1 ≠ st.indices[j]) :
    scaleTObj gr sig iouF p st st.indices[j] =
      (1 - gr) + gr * max (scaleIous sig iouF p st)[j] 0 ∧
    (gr = 1 → (scaleIous sig iouF p st)[j] = 1 →
      scaleTObj gr sig iouF p st st.indices[j] = 1) := by
  have hjz : j < (st.indices.zip (scaleIous sig iouF p st)).length := by
    rw [List.length_zip]; omega
  have main : scaleTObj gr sig iouF p st st.indices[j] =
      (1 - gr) + gr * max (scaleIous sig iouF p st)[j] 0 := by
    unfold scaleTObj
    conv_lhs =>
      rw [← List.take_append_drop j (st.indices.zip (scaleIous sig iouF p st)),
        List.drop_eq_getElem_cons hjz, List.foldl_append, List.foldl_cons]
    rw [foldl_scatterWrite_untouched gr _ _ _
      (by
        intro iv hiv
        exact hlast iv hiv)]
    have hget : (st.indices.zip (scaleIous sig iouF p st))[j] =
        (st.indices[j], (scaleIous sig iouF p st)[j]) := List.getElem_zip
    rw [hget]
    simp [scatterWrite]
  refine ⟨main, ?_⟩
  intro h1 h2
  rw [main, h1, h2]
  norm_num

/-- Matched-target bundle with a single match at cell `(0,0,0,0)`, class 0,
unit anchor, for concrete evaluations. -/
def oneTargets : ScaleTargets := ⟨[0], [(0.5, 0.5, 1, 1)], [(0, 0, 0, 0)], [(1, 1)]⟩

/-- Witness for C4: with one match, `gr = 1` and a perfect IoU of `1`, the
objectness target at the matched cell is exactly `1`. -/
theorem C4_objectness_target_value_witness :
    scaleTObj 1 sigHalf iouConst zeroPred oneTargets (0, 0, 0, 0) = 1 := by
  have h := C4_objectness_target_value 1 sigHalf iouConst zeroPred oneTargets 0
    (by decide)
    (by decide)
    (by intro iv hiv; simp [oneTargets, scaleIous] at hiv)
  exact h.2 rfl rfl

/-- C8: with the segmentation-freeze flag set, the segmentation entry of the
breakdown tuple is exactly `0` for every segmentation prediction and target,
the box, objectness and classification entries coincide with the unfrozen
computation, and the frozen total is the sum of the unfrozen box, objectness
and classification terms alone. -/
theorem C8_freeze_seg_frame (losses : List LossFn) (lam : List ℚ)
    (g1 g2 g3 g4 : ℚ) (sig : ℚ → ℚ) (iouF : Box4 → Box4 → ℚ)
    (scales : List (ScalePred × ScaleTargets)) (segPred segTgt : List ℚ)
    (model : YModel) :
    ((⟨losses, lam, ⟨g1, g2, g3, g4, true⟩⟩ : MultiHeadLoss).forward_impl
        sig iouF scales segPred segTgt model).2.2.2.2.1 = 0 ∧
    ((⟨losses, lam, ⟨g1, g2, g3, g4, true⟩⟩ : MultiHeadLoss).forward_impl
        sig iouF scales segPred segTgt model).2.1 =
      ((⟨losses, lam, ⟨g1, g2, g3, g4, false⟩⟩ : MultiHeadLoss).forward_impl
        sig iouF scales segPred segTgt model).2.1 ∧
    ((⟨losses, lam, ⟨g1, g2, g3, g4, true⟩⟩ : MultiHeadLoss).forward_impl
        sig iouF scales segPred segTgt model).2.2.1 =
      ((⟨losses, lam, ⟨g1, g2, g3, g4, false⟩⟩ : MultiHeadLoss).forward_impl
        sig iouF scales segPred segTgt model).2.2.1 ∧
    ((⟨losses, lam, ⟨g1, g2, g3, g4, true⟩⟩ : MultiHeadLoss).forward_impl
        sig iouF scales segPred segTgt model).2.2.2.1 =
      ((⟨losses, lam, ⟨g1, g2, g3, g4, false⟩⟩ : MultiHeadLoss).forward_impl
        sig iouF scales segPred segTgt model).2.2.2.1 ∧
    ((⟨losses, lam, ⟨g1, g2, g3, g4, true⟩⟩ : MultiHeadLoss).forward_impl
        sig iouF scales segPred segTgt model).1 =
      ((⟨losses, lam, ⟨g1, g2, g3, g4, false⟩⟩ : MultiHeadLoss).forward_impl
        sig iouF scales segPred segTgt model).2.1 +
      ((⟨losses, lam, ⟨g1, g2, g3, g4, false⟩⟩ : MultiHeadLoss).forward_impl
        sig iouF scales segPred segTgt model).2.2.1 +
      ((⟨losses, lam, ⟨g1, g2, g3, g4, false⟩⟩ : MultiHeadLoss).forward_impl
        sig iouF scales segPred segTgt model).2.2.2.1 := by
  refine ⟨?_, rfl, rfl, rfl, ?_⟩ <;>
    simp [MultiHeadLoss.forward_impl]

/-- Folding the detection step with a single class never moves the
classification accumulator: the `nc > 1` guard fails at every scale. -/
theorem foldl_detStep_cls_frozen (BCEcls BCEobj : LossFn) (g : ℚ)
    (sig : ℚ → ℚ) (iouF : Box4 → Box4 → ℚ) (cp cn : ℚ) (bal : List ℚ)
    (l : List (ℕ × (ScalePred × ScaleTargets))) :
    ∀ acc : ℚ × ℚ × ℚ,
      (l.foldl (detStep BCEcls BCEobj ⟨g, 1⟩ sig iouF cp cn bal) acc).1 = acc.1 := by
  induction l with
  | nil => intro acc; rfl
  | cons a l ih =>
      intro acc
      rw [List.foldl_cons, ih]
      simp [detStep, scaleClsLoss]

/-- C9: with a single object class (`model.nc = 1`) the classification-loss
accumulator stays exactly zero whatever is matched at any scale, and so does
the classification entry of the returned breakdown tuple. -/
theorem C9_single_class_zero_cls (m : MultiHeadLoss) (sig : ℚ → ℚ)
    (iouF : Box4 → Box4 → ℚ) (scales : List (ScalePred × ScaleTargets))
    (segPred segTgt : List ℚ) (g : ℚ) :
    (detAccum (m.losses.getD 0 (fun _ _ => 0)) (m.losses.getD 1 (fun _ _ => 0))
        ⟨g, 1⟩ sig iouF (smooth_BCE 0).1 (smooth_BCE 0).2 scales
        (balance scales.length)).1 = 0 ∧
    (m.forward_impl sig iouF scales segPred segTgt ⟨g, 1⟩).2.2.2.1 = 0 := by
  have hacc : (detAccum (m.losses.getD 0 (fun _ _ => 0))
      (m.losses.getD 1 (fun _ _ => 0)) ⟨g, 1⟩ sig iouF (smooth_BCE 0).1
      (smooth_BCE 0).2 scales (balance scales.length)).1 = 0 :=
    foldl_detStep_cls_frozen _ _ _ _ _ _ _ _ _ (0, 0, 0)
  refine ⟨hacc, ?_⟩
  show (detAccum (m.losses.getD 0 (fun _ _ => 0)) (m.losses.getD 1 (fun _ _ => 0))
      ⟨g, 1⟩ sig iouF (smooth_BCE 0).1 (smooth_BCE 0).2 scales
      (balance scales.length)).1 *
      (m.cfg.CLS_GAIN * (3 / (scales.length : ℚ)) * m.lambdas.getD 0 0) = 0
  rw [hacc, zero_mul]

end DaChuangLoss
